import Mathlib

/-!
Verification of the benchmark regression gate
(`.github/scripts/benchmark_regression_gate.py`).

The script is a single `main` routine: it loads a JSON results document and
an optional JSON baseline document, classifies every benchmark entry against
the baseline, prints a report and returns an exit code.  The embedding below
transcribes that routine.

Modelling conventions:
* Python floats are modelled as rationals (`ℚ`); the claims under study are
  about the comparison logic, not about binary rounding.
* JSON scalars that can appear in an entry are modelled by `PyVal`; Python's
  `float(x)` coercion, which raises on `None`, lists and non-numeric strings,
  is modelled by the partial function `pyFloat`.
* The baseline document is modelled per the documented file format: a flat
  object mapping method names (strings) to numeric means.
* An uncaught Python exception (a traceback) is modelled by `Except.error`;
  the interpreter terminates such a run with process exit status 1.
* Each `print(...)` call becomes one element of an output-line list; stderr
  (tracebacks) is not part of the modelled output.
-/

set_option autoImplicit false

/-- A JSON scalar or composite value as it appears after `json.load`.
Objects nested inside entries are not needed by any claim and are folded
into the `arr` constructor's role of "composite, not float-coercible". -/
inductive PyVal : Type where
  | num (q : ℚ)
  | str (s : String)
  | boolean (b : Bool)
  | null
  | arr (xs : List PyVal)

/-- Numeric value of a list of decimal digit characters. -/
def digitsNat (cs : List Char) : ℕ :=
  cs.foldl (fun a c => a * 10 + (c.toNat - 48)) 0

/-- Python `float(s)` on a string, for plain decimal literals: optional
sign, integer digits, optional fractional digits, surrounding whitespace.
Scientific notation, `inf`/`nan` and digit separators are outside the
model; no claim exercises a string-valued mean. -/
def pyParseFloat (s : String) : Option ℚ :=
  let body := s.trim.toList
  let sd : ℚ × List Char :=
    match body with
    | '-' :: rest => (-1, rest)
    | '+' :: rest => (1, rest)
    | cs => (1, cs)
  let ip := sd.2.takeWhile Char.isDigit
  match sd.2.drop ip.length with
  | [] => if ip.isEmpty then none else some (sd.1 * digitsNat ip)
  | '.' :: fp =>
    if fp.all Char.isDigit && !(ip.isEmpty && fp.isEmpty) then
      some (sd.1 * ((digitsNat ip : ℚ) + (digitsNat fp : ℚ) / (10 : ℚ) ^ fp.length))
    else none
  | _ => none

/-- Python `float(x)` on a JSON value: numbers and booleans coerce, strings
are parsed, `None` and composites raise (`none` models the raised
`TypeError`/`ValueError`). -/
def pyFloat : PyVal → Option ℚ
  | .num q => some q
  | .str s => pyParseFloat s
  | .boolean b => some (if b then 1 else 0)
  | .null => none
  | .arr _ => none

/-- Python `str(x)` for the values a `method` field can hold in the claims:
`None` prints as `"None"`, strings print verbatim, booleans as
`True`/`False`.  Numeric and composite reprs are abbreviated; no claim
inspects them. -/
def pyStr : PyVal → String
  | .null => "None"
  | .str s => s
  | .boolean b => if b then "True" else "False"
  | .num q => toString q
  | .arr _ => "[...]"

/-- One element of the `"benchmarks"` list: a JSON object, of which only
the `"method"` and `"mean"` keys are ever read.  A field is `none` when
the key is absent from the object. -/
structure BenchItem : Type where
  method : Option PyVal
  mean : Option PyVal

/-- `item.get("method")`: `None` both when the key is absent and when its
value is JSON `null`. -/
def itemMethodVal (it : BenchItem) : PyVal := it.method.getD .null

/-- `item.get("mean", 0)`: the field's value when present, the integer `0`
otherwise. -/
def itemMeanVal (it : BenchItem) : PyVal := it.mean.getD (.num 0)

/-- `method in baseline` / `baseline[method]` against the parsed baseline
object.  JSON object keys are strings, so only a string method can match a
key; `None`, numbers and booleans never equal a string in Python. -/
def lookupBaseline (tbl : List (String × ℚ)) : PyVal → Option ℚ
  | .str s => tbl.lookup s
  | _ => none

/-- The four categories of §4.2: which message list an entry's message is
appended to, with the two `improvements`-list cases kept distinct. -/
inductive Classification : Type where
  | Regression
  | SlowerWithinThreshold
  | Improvement
  | NewBenchmark
  deriving DecidableEq

/-- Round to the nearest integer, ties to even: the rounding used by
Python's fixed-point `format`. -/
def rndHalfEven (q : ℚ) : ℤ :=
  if Int.fract q < 1 / 2 then ⌊q⌋
  else if Int.fract q > 1 / 2 then ⌊q⌋ + 1
  else if ⌊q⌋ % 2 = 0 then ⌊q⌋ else ⌊q⌋ + 1

/-- Python `"%.1f"`-style formatting of a rational: one decimal digit,
ties to even, a leading sign when a negative value rounds to (negative)
zero. -/
def fmt1 (q : ℚ) : String :=
  let n := rndHalfEven (q * 10)
  let sign := if n < 0 ∨ (n = 0 ∧ q < 0) then "-" else ""
  sign ++ toString (n.natAbs / 10) ++ "." ++ toString (n.natAbs % 10)

/-- Python `"%.0f"`-style formatting of a rational. -/
def fmt0 (q : ℚ) : String :=
  let n := rndHalfEven q
  let sign := if n < 0 ∨ (n = 0 ∧ q < 0) then "-" else ""
  sign ++ toString n.natAbs

/-- `change` as computed in the loop body: `0` when the baseline mean is
zero, the relative change otherwise. -/
def changeOf (baseline_mean mean : ℚ) : ℚ :=
  if baseline_mean = 0 then 0 else (mean - baseline_mean) / baseline_mean

/-- The `if change > threshold / elif change > 0 / else` cascade for an
entry whose method was found in the baseline. -/
def classifyKnown (threshold baseline_mean mean : ℚ) : Classification :=
  let change := changeOf baseline_mean mean
  if change > threshold then .Regression
  else if change > 0 then .SlowerWithinThreshold
  else .Improvement

/-- One iteration of the `for item in results.get("benchmarks", [])` loop
body, up to the append: the category and message for one entry, or
`Except.error` when `float(item.get("mean", 0))` raises. -/
def processItem (threshold : ℚ) (tbl : List (String × ℚ)) (it : BenchItem) :
    Except Unit (Classification × String) :=
  let method := itemMethodVal it
  match pyFloat (itemMeanVal it) with
  | none => .error ()
  | some mean =>
    match lookupBaseline tbl method with
    | some baseline_mean =>
      let change := if baseline_mean = 0 then 0 else (mean - baseline_mean) / baseline_mean
      if change > threshold then
        .ok (.Regression,
          pyStr method ++ ": " ++ fmt1 (change * 100) ++ "% regression (baseline: " ++
            fmt0 baseline_mean ++ "ns, current: " ++ fmt0 mean ++ "ns)")
      else if change > 0 then
        .ok (.SlowerWithinThreshold,
          pyStr method ++ ": " ++ fmt1 (change * 100) ++ "% slower (within threshold)")
      else
        .ok (.Improvement,
          pyStr method ++ ": " ++ fmt1 (abs change * 100) ++ "% faster (improvement)")
    | none =>
      .ok (.NewBenchmark, pyStr method ++ ": new benchmark (mean: " ++ fmt0 mean ++ "ns)")

/-- The category assigned to an entry, `none` when processing the entry
raises. -/
def classOf (threshold : ℚ) (tbl : List (String × ℚ)) (it : BenchItem) :
    Option Classification :=
  match processItem threshold tbl it with
  | .ok (c, _) => some c
  | .error _ => none

/-- The three accumulator lists of the loop. -/
structure Buckets : Type where
  regressions : List String
  improvements : List String
  new_benchmarks : List String
  deriving DecidableEq

def emptyBuckets : Buckets := ⟨[], [], []⟩

/-- One loop iteration including the `append` to the matching list. -/
def stepItem (threshold : ℚ) (tbl : List (String × ℚ)) (b : Buckets) (it : BenchItem) :
    Except Unit Buckets :=
  match processItem threshold tbl it with
  | .error e => .error e
  | .ok (c, msg) =>
    .ok (match c with
      | .Regression => { b with regressions := b.regressions ++ [msg] }
      | .SlowerWithinThreshold => { b with improvements := b.improvements ++ [msg] }
      | .Improvement => { b with improvements := b.improvements ++ [msg] }
      | .NewBenchmark => { b with new_benchmarks := b.new_benchmarks ++ [msg] })

/-- The whole loop over the benchmarks list. -/
def processAll (threshold : ℚ) (tbl : List (String × ℚ)) (items : List BenchItem) :
    Except Unit Buckets :=
  items.foldlM (stepItem threshold tbl) emptyBuckets

/-- `"=" * 70`. -/
def bar70 : String := String.mk (List.replicate 70 '=')

/-- The three unconditional header prints. -/
def reportHead : List String :=
  ["\n" ++ bar70, "BENCHMARK COMPARISON REPORT", bar70]

/-- `print(f"  {msg}")`. -/
def indentTwo (m : String) : String := "  " ++ m

/-- The report prints after the loop, one list element per `print` call,
paired with the value `main` returns. -/
def reportLines (threshold : ℚ) (b : Buckets) : List String × ℕ :=
  let impSec := if b.improvements = [] then [] else
    "\n✓ Improvements/Within Threshold:" :: b.improvements.map indentTwo
  let newSec := if b.new_benchmarks = [] then [] else
    "\n+ New Benchmarks:" :: b.new_benchmarks.map indentTwo
  if b.regressions = [] then
    (reportHead ++ impSec ++ newSec ++
      ["\n✓ All benchmarks within acceptable threshold", bar70 ++ "\n"], 0)
  else
    (reportHead ++ impSec ++ newSec ++
      (("\n❌ REGRESSIONS DETECTED (> " ++ fmt0 (threshold * 100) ++ "% threshold):") ::
        b.regressions.map indentTwo) ++ ["\n" ++ bar70], 1)

/-- The two file-open operations the script can perform, in program
order. -/
inductive FileEvent : Type where
  | readResults
  | readBaseline
  deriving DecidableEq

/-- What the filesystem holds at one of the two paths: no file, a file
`json.load` rejects (with the stringified exception), or a file parsing to
a document. -/
inductive FileState (α : Type) : Type where
  | absent : FileState α
  | unparsable (err : String) : FileState α
  | parsed (a : α) : FileState α

/-- The parsed results document, of the documented shape: an object whose
`"benchmarks"` key, when present, holds a list of entries. -/
structure ResultsDoc : Type where
  benchmarks : Option (List BenchItem)

/-- One invocation: the two paths, what the filesystem holds at each, and
the threshold (argparse coerces it to a float, with no further
validation). -/
structure RunInput : Type where
  resultsPath : String
  baselinePath : String
  results : FileState ResultsDoc
  baseline : FileState (List (String × ℚ))
  threshold : ℚ

/-- Observable outcome of a run: file opens in order, stdout lines in
order, the process exit status, and whether an exception escaped `main`
(in which case the interpreter prints a traceback to stderr and exits with
status 1). -/
structure RunResult : Type where
  events : List FileEvent
  output : List String
  exitCode : ℕ
  crashed : Bool
  deriving DecidableEq

/-- The table the loop runs against: empty unless the baseline file exists
and parses. -/
def effTable : FileState (List (String × ℚ)) → List (String × ℚ)
  | .parsed t => t
  | _ => []

/-- Baseline file opens: the file is opened whenever it exists. -/
def baselineEvents : FileState (List (String × ℚ)) → List FileEvent
  | .absent => []
  | _ => [.readBaseline]

/-- The non-fatal warning printed when the baseline exists but fails to
parse. -/
def baselineWarnings : FileState (List (String × ℚ)) → List String
  | .unparsable e => ["⚠️  Warning: Could not load baseline: " ++ e]
  | _ => []

/-- The whole of `main`, from the existence check on the results path to
the returned exit code, plus the interpreter's handling of an uncaught
exception. -/
def runGate (inp : RunInput) : RunResult :=
  match inp.results with
  | .absent =>
    ⟨[], ["❌ Benchmark results file not found: " ++ inp.resultsPath], 1, false⟩
  | .unparsable e =>
    ⟨[.readResults], ["❌ Failed to load results: " ++ e], 1, false⟩
  | .parsed doc =>
    match processAll inp.threshold (effTable inp.baseline) (doc.benchmarks.getD []) with
    | .error _ =>
      ⟨.readResults :: baselineEvents inp.baseline, baselineWarnings inp.baseline, 1, true⟩
    | .ok b =>
      let lc := reportLines inp.threshold b
      ⟨.readResults :: baselineEvents inp.baseline,
        baselineWarnings inp.baseline ++ lc.1, lc.2, false⟩

/-- An entry of the documented shape: a string method and a numeric
mean. -/
def mkEntry (method : String) (mean : ℚ) : BenchItem :=
  ⟨some (.str method), some (.num mean)⟩

/-- The message an entry contributes to the `regressions` list, if any. -/
def regMsg (threshold : ℚ) (tbl : List (String × ℚ)) (it : BenchItem) : Option String :=
  match processItem threshold tbl it with
  | .ok (.Regression, m) => some m
  | _ => none

/-- The message an entry contributes to the `improvements` list, if any
(the list holds both within-threshold and improvement messages). -/
def impMsg (threshold : ℚ) (tbl : List (String × ℚ)) (it : BenchItem) : Option String :=
  match processItem threshold tbl it with
  | .ok (.SlowerWithinThreshold, m) => some m
  | .ok (.Improvement, m) => some m
  | _ => none

/-- The message an entry contributes to the `new_benchmarks` list, if
any. -/
def newMsg (threshold : ℚ) (tbl : List (String × ℚ)) (it : BenchItem) : Option String :=
  match processItem threshold tbl it with
  | .ok (.NewBenchmark, m) => some m
  | _ => none

/-! ### Helper lemmas -/

theorem lookupBaseline_nil (v : PyVal) : lookupBaseline [] v = none := by
  cases v <;> rfl

theorem classOf_mkEntry_known (th : ℚ) (tbl : List (String × ℚ)) (s : String)
    (bm mean : ℚ) (h : lookupBaseline tbl (.str s) = some bm) :
    classOf th tbl (mkEntry s mean) = some (classifyKnown th bm mean) := by
  simp only [classOf, processItem, mkEntry, itemMethodVal, itemMeanVal, Option.getD,
    pyFloat, h, classifyKnown, changeOf]
  split_ifs <;> rfl

theorem classifyKnown_regression_iff (th bm mean : ℚ) (hb : bm ≠ 0) :
    classifyKnown th bm mean = .Regression ↔ (mean - bm) / bm > th := by
  simp only [classifyKnown, changeOf, if_neg hb]
  split_ifs with h1 h2 <;> simp_all

theorem classifyKnown_boundary (th bm mean : ℚ) (hb : bm ≠ 0)
    (heq : (mean - bm) / bm = th) :
    (0 < th → classifyKnown th bm mean = .SlowerWithinThreshold) ∧
    (th ≤ 0 → classifyKnown th bm mean = .Improvement) := by
  simp only [classifyKnown, changeOf, if_neg hb, heq]
  constructor
  · intro hpos
    rw [if_neg (lt_irrefl th), if_pos hpos]
  · intro hnp
    rw [if_neg (lt_irrefl th), if_neg (not_lt.mpr hnp)]

theorem changeOf_zero_baseline (mean : ℚ) : changeOf 0 mean = 0 := by
  simp [changeOf]

theorem classifyKnown_zero_baseline (th mean : ℚ) :
    (0 ≤ th → classifyKnown th 0 mean ≠ .Regression) ∧
    (th < 0 → classifyKnown th 0 mean = .Regression) := by
  simp only [classifyKnown, changeOf_zero_baseline]
  constructor
  · intro hth
    rw [if_neg (not_lt.mpr hth), if_neg (lt_irrefl 0)]
    simp
  · intro hth
    rw [if_pos hth]

theorem foldl_buckets (th : ℚ) (tbl : List (String × ℚ)) (items : List BenchItem) :
    ∀ b0 bout : Buckets,
      List.foldlM (stepItem th tbl) b0 items = Except.ok bout →
      bout.regressions = b0.regressions ++ items.filterMap (regMsg th tbl) ∧
      bout.improvements = b0.improvements ++ items.filterMap (impMsg th tbl) ∧
      bout.new_benchmarks = b0.new_benchmarks ++ items.filterMap (newMsg th tbl) := by
  induction items with
  | nil =>
    intro b0 bout h
    simp only [List.foldlM_nil, pure, Except.pure, Except.ok.injEq] at h
    subst h
    simp
  | cons it rest ih =>
    intro b0 bout h
    rw [List.foldlM_cons] at h
    cases hp : processItem th tbl it with
    | error e =>
      simp only [stepItem, hp, Bind.bind, Except.bind] at h
      exact Except.noConfusion h
    | ok cm =>
      obtain ⟨c, m⟩ := cm
      simp only [stepItem, hp, Bind.bind, Except.bind] at h
      cases c with
      | Regression =>
        obtain ⟨h1, h2, h3⟩ := ih _ _ h
        simp only [h1, h2, h3, List.filterMap_cons, regMsg, impMsg, newMsg, hp]
        refine ⟨?_, ?_, ?_⟩ <;> simp
      | SlowerWithinThreshold =>
        obtain ⟨h1, h2, h3⟩ := ih _ _ h
        simp only [h1, h2, h3, List.filterMap_cons, regMsg, impMsg, newMsg, hp]
        refine ⟨?_, ?_, ?_⟩ <;> simp
      | Improvement =>
        obtain ⟨h1, h2, h3⟩ := ih _ _ h
        simp only [h1, h2, h3, List.filterMap_cons, regMsg, impMsg, newMsg, hp]
        refine ⟨?_, ?_, ?_⟩ <;> simp
      | NewBenchmark =>
        obtain ⟨h1, h2, h3⟩ := ih _ _ h
        simp only [h1, h2, h3, List.filterMap_cons, regMsg, impMsg, newMsg, hp]
        refine ⟨?_, ?_, ?_⟩ <;> simp

theorem processAll_buckets (th : ℚ) (tbl : List (String × ℚ)) (items : List BenchItem)
    (bout : Buckets) (h : processAll th tbl items = Except.ok bout) :
    bout.regressions = items.filterMap (regMsg th tbl) ∧
    bout.improvements = items.filterMap (impMsg th tbl) ∧
    bout.new_benchmarks = items.filterMap (newMsg th tbl) := by
  have := foldl_buckets th tbl items emptyBuckets bout h
  simpa [emptyBuckets] using this

theorem foldl_all_ok (th : ℚ) (tbl : List (String × ℚ)) (items : List BenchItem) :
    ∀ b0 bout : Buckets,
      List.foldlM (stepItem th tbl) b0 items = Except.ok bout →
      ∀ it ∈ items, ∃ c m, processItem th tbl it = Except.ok (c, m) := by
  induction items with
  | nil => intro b0 bout _ it hit; cases hit
  | cons it0 rest ih =>
    intro b0 bout h it hit
    rw [List.foldlM_cons] at h
    cases hp : processItem th tbl it0 with
    | error e =>
      simp only [stepItem, hp, Bind.bind, Except.bind] at h
      exact Except.noConfusion h
    | ok cm =>
      obtain ⟨c, m⟩ := cm
      simp only [stepItem, hp, Bind.bind, Except.bind] at h
      rcases List.mem_cons.mp hit with heq | hmem
      · exact ⟨c, m, heq ▸ hp⟩
      · exact ih _ _ h it hmem

theorem processAll_all_ok (th : ℚ) (tbl : List (String × ℚ)) (items : List BenchItem)
    (bout : Buckets) (h : processAll th tbl items = Except.ok bout) :
    ∀ it ∈ items, ∃ c m, processItem th tbl it = Except.ok (c, m) :=
  foldl_all_ok th tbl items emptyBuckets bout h

theorem filterMap_msg_lengths (th : ℚ) (tbl : List (String × ℚ)) (items : List BenchItem)
    (hok : ∀ it ∈ items, ∃ c m, processItem th tbl it = Except.ok (c, m)) :
    (items.filterMap (regMsg th tbl)).length + (items.filterMap (impMsg th tbl)).length +
      (items.filterMap (newMsg th tbl)).length = items.length := by
  induction items with
  | nil => simp
  | cons it rest ih =>
    obtain ⟨c, m, hp⟩ := hok it (List.mem_cons_self it rest)
    have ih' := ih fun x hx => hok x (List.mem_cons_of_mem it hx)
    cases c <;>
      simp only [List.filterMap_cons, regMsg, impMsg, newMsg, hp, List.length_cons] <;>
      omega

theorem regMsg_ne_none_iff (th : ℚ) (tbl : List (String × ℚ)) (it : BenchItem) :
    regMsg th tbl it ≠ none ↔ classOf th tbl it = some Classification.Regression := by
  unfold regMsg classOf
  cases hp : processItem th tbl it with
  | error e => simp
  | ok cm =>
    obtain ⟨c, m⟩ := cm
    cases c <;> simp

theorem processItem_unknown_class (th : ℚ) (tbl : List (String × ℚ)) (it : BenchItem)
    (c : Classification) (m : String) (h : processItem th tbl it = Except.ok (c, m))
    (hlk : lookupBaseline tbl (itemMethodVal it) = none) : c = Classification.NewBenchmark := by
  cases hf : pyFloat (itemMeanVal it) with
  | none =>
    simp only [processItem, hf] at h
    exact Except.noConfusion h
  | some mean =>
    simp only [processItem, hf, hlk] at h
    exact (congrArg Prod.fst (Except.ok.inj h)).symm

theorem lookupBaseline_null (tbl : List (String × ℚ)) : lookupBaseline tbl .null = none := rfl

theorem classifyKnown_zero_eq (th mean : ℚ) :
    classifyKnown th 0 mean = if th < 0 then .Regression else .Improvement := by
  simp only [classifyKnown, changeOf_zero_baseline]
  by_cases h : th < 0
  · rw [if_pos h, if_pos h]
  · rw [if_neg h, if_neg h, if_neg (lt_irrefl 0)]

theorem fmt1_zero : fmt1 0 = "0.0" := by with_unfolding_all rfl

theorem reportLines_code (th : ℚ) (b : Buckets) :
    (reportLines th b).2 = if b.regressions = [] then 0 else 1 := by
  by_cases h : b.regressions = [] <;> simp [reportLines, h]

/-! ### Claims -/

/-- Claim C1, counterexample: with threshold 0, baseline mean 100 and
current mean 100 the relative change equals the threshold exactly, yet the
entry is classified Improvement, not SlowerWithinThreshold as the claim
states. -/
theorem claim_C1_counterexample :
    ((100 : ℚ) - 100) / 100 = 0 ∧
    classOf 0 [("foo", 100)] (mkEntry "foo" 100) = some Classification.Improvement := by
  constructor
  · norm_num
  · with_unfolding_all rfl

/-- Claim C1 (amended): for an entry whose method is present in the
baseline with baseline mean bm > 0, the classification is Regression iff
(mean - bm) / bm is strictly greater than the threshold; when the relative
change equals the threshold exactly the entry is never Regression — it is
SlowerWithinThreshold when the threshold is positive and Improvement when
the threshold is ≤ 0. -/
theorem claim_C1_regression_strict_iff (th : ℚ) (tbl : List (String × ℚ)) (s : String)
    (bm mean : ℚ) (hl : lookupBaseline tbl (.str s) = some bm) (hb : 0 < bm) :
    (classOf th tbl (mkEntry s mean) = some Classification.Regression ↔
      (mean - bm) / bm > th) ∧
    ((mean - bm) / bm = th →
      (0 < th → classOf th tbl (mkEntry s mean) = some Classification.SlowerWithinThreshold) ∧
      (th ≤ 0 → classOf th tbl (mkEntry s mean) = some Classification.Improvement)) := by
  have hbm : bm ≠ 0 := ne_of_gt hb
  rw [classOf_mkEntry_known th tbl s bm mean hl]
  constructor
  · rw [Option.some_inj]
    exact classifyKnown_regression_iff th bm mean hbm
  · intro heq
    obtain ⟨h1, h2⟩ := classifyKnown_boundary th bm mean hbm heq
    exact ⟨fun hpos => by rw [h1 hpos], fun hnp => by rw [h2 hnp]⟩

/-- Claim C1, witness: the amended theorem applied at threshold 1/10,
baseline 100, current mean 150. -/
theorem claim_C1_witness :
    (classOf (1/10) [("foo", 100)] (mkEntry "foo" 150) = some Classification.Regression ↔
      ((150 : ℚ) - 100) / 100 > 1/10) ∧
    (((150 : ℚ) - 100) / 100 = 1/10 →
      (0 < (1/10 : ℚ) →
        classOf (1/10) [("foo", 100)] (mkEntry "foo" 150) =
          some Classification.SlowerWithinThreshold) ∧
      ((1/10 : ℚ) ≤ 0 →
        classOf (1/10) [("foo", 100)] (mkEntry "foo" 150) =
          some Classification.Improvement)) :=
  claim_C1_regression_strict_iff (1/10) [("foo", 100)] "foo" 100 150
    (by with_unfolding_all rfl) (by norm_num)

/-- Claim C3, counterexample: with a negative threshold (the CLI performs
no validation beyond float coercion), a zero-baseline entry IS classified
Regression, because its forced change 0 exceeds the threshold. -/
theorem claim_C3_counterexample :
    changeOf 0 5 = 0 ∧
    classOf (-1/10) [("foo", 0)] (mkEntry "foo" 5) = some Classification.Regression := by
  refine ⟨changeOf_zero_baseline 5, ?_⟩
  with_unfolding_all rfl

/-- Claim C3 (amended): for an entry whose method has baseline mean 0 the
computed change is exactly 0 regardless of the current mean, so the entry
is never classified Regression provided the threshold is nonnegative; with
a negative threshold the zero change exceeds the threshold and the entry
IS classified Regression. -/
theorem claim_C3_zero_baseline (th mean : ℚ) (tbl : List (String × ℚ)) (s : String)
    (hl : lookupBaseline tbl (.str s) = some 0) :
    changeOf 0 mean = 0 ∧
    (0 ≤ th → classOf th tbl (mkEntry s mean) ≠ some Classification.Regression) ∧
    (th < 0 → classOf th tbl (mkEntry s mean) = some Classification.Regression) := by
  refine ⟨changeOf_zero_baseline mean, ?_, ?_⟩
  · intro hth
    rw [classOf_mkEntry_known th tbl s 0 mean hl]
    have h := (classifyKnown_zero_baseline th mean).1 hth
    simpa using h
  · intro hth
    rw [classOf_mkEntry_known th tbl s 0 mean hl, (classifyKnown_zero_baseline th mean).2 hth]

/-- Claim C3, witness: the amended theorem applied at threshold 1/10,
baseline 0, current mean 999. -/
theorem claim_C3_witness :
    changeOf 0 999 = 0 ∧
    (0 ≤ (1/10 : ℚ) →
      classOf (1/10) [("foo", 0)] (mkEntry "foo" 999) ≠ some Classification.Regression) ∧
    ((1/10 : ℚ) < 0 →
      classOf (1/10) [("foo", 0)] (mkEntry "foo" 999) = some Classification.Regression) :=
  claim_C3_zero_baseline (1/10) 999 [("foo", 0)] "foo" (by with_unfolding_all rfl)

/-- Claim C10, counterexample: with a negative threshold a zero-baseline
entry is reported as a Regression (its forced change 0 exceeds the
threshold), not as an Improvement as the claim states. -/
theorem claim_C10_counterexample :
    classOf (-1/10) [("bar", 0)] (mkEntry "bar" 999) = some Classification.Regression ∧
    regMsg (-1/10) [("bar", 0)] (mkEntry "bar" 999) =
      some "bar: 0.0% regression (baseline: 0ns, current: 999ns)" := by
  constructor <;> with_unfolding_all rfl

/-- Claim C10 (amended): for a method present in the baseline with
baseline mean 0, the entry is never reported as SlowerWithinThreshold or
NewBenchmark; provided the threshold is nonnegative it lands in the merged
improvement/within-threshold bucket with the message
"method: 0.0% faster (improvement)", and with a negative threshold it is
reported as a Regression instead. -/
theorem claim_C10_zero_baseline_message (th mean : ℚ) (tbl : List (String × ℚ))
    (s : String) (hl : lookupBaseline tbl (.str s) = some 0) :
    (0 ≤ th → processItem th tbl (mkEntry s mean) =
      Except.ok (Classification.Improvement, s ++ ": 0.0% faster (improvement)")) ∧
    classOf th tbl (mkEntry s mean) ≠ some Classification.SlowerWithinThreshold ∧
    classOf th tbl (mkEntry s mean) ≠ some Classification.NewBenchmark ∧
    (th < 0 → classOf th tbl (mkEntry s mean) = some Classification.Regression) := by
  have hcls : classOf th tbl (mkEntry s mean) = some (classifyKnown th 0 mean) :=
    classOf_mkEntry_known th tbl s 0 mean hl
  refine ⟨?_, ?_, ?_, ?_⟩
  · intro hth
    have h0 : ¬((0 : ℚ) > th) := not_lt.mpr hth
    simp only [processItem, mkEntry, itemMethodVal, itemMeanVal, Option.getD, pyFloat, hl]
    rw [if_true, if_neg h0, if_neg (lt_irrefl 0)]
    have habs : |(0 : ℚ)| * 100 = 0 := by norm_num
    rw [habs, fmt1_zero, pyStr]
    simp [String.append_assoc]
  · rw [hcls, classifyKnown_zero_eq]
    split_ifs <;> simp
  · rw [hcls, classifyKnown_zero_eq]
    split_ifs <;> simp
  · intro hth
    rw [hcls, classifyKnown_zero_eq, if_pos hth]

/-- Claim C10, witness: the amended theorem applied at threshold 1/10,
baseline 0, current mean 12345. -/
theorem claim_C10_witness :
    (0 ≤ (1/10 : ℚ) → processItem (1/10) [("m", 0)] (mkEntry "m" 12345) =
      Except.ok (Classification.Improvement, "m" ++ ": 0.0% faster (improvement)")) ∧
    classOf (1/10) [("m", 0)] (mkEntry "m" 12345) ≠
      some Classification.SlowerWithinThreshold ∧
    classOf (1/10) [("m", 0)] (mkEntry "m" 12345) ≠ some Classification.NewBenchmark ∧
    ((1/10 : ℚ) < 0 →
      classOf (1/10) [("m", 0)] (mkEntry "m" 12345) = some Classification.Regression) :=
  claim_C10_zero_baseline_message (1/10) 12345 [("m", 0)] "m" (by with_unfolding_all rfl)

/-- Claim C5, counterexample: an entry whose mean field is JSON null is
not processed with mean 0 — `float(None)` raises, so the entry gets no
classification at all (the run crashes), unlike the same entry with an
explicit mean of 0, which is classified. -/
theorem claim_C5_counterexample :
    classOf (1/10) [] ⟨some (.str "foo"), some .null⟩ = none ∧
    classOf (1/10) [] ⟨some (.str "foo"), some (.num 0)⟩ =
      some Classification.NewBenchmark ∧
    processAll (1/10) [] [⟨some (.str "foo"), some .null⟩] = Except.error () := by
  refine ⟨?_, ?_, ?_⟩ <;> with_unfolding_all rfl

/-- Claim C5 (amended): an absent method field does not crash processing —
the entry is carried with the null method name and (when its mean coerces)
classified NewBenchmark, since null is never a baseline key; the mean used
is 0 when the mean field is absent; but a present mean that cannot be
coerced to a number makes processing raise an uncaught exception rather
than defaulting to 0. -/
theorem claim_C5_field_defaults :
    (∀ (th : ℚ) (tbl : List (String × ℚ)) (mv : Option PyVal),
      (pyFloat (mv.getD (.num 0))).isSome →
      ∃ m, processItem th tbl ⟨none, mv⟩ = Except.ok (Classification.NewBenchmark, m)) ∧
    (∀ (th : ℚ) (tbl : List (String × ℚ)) (m0 : Option PyVal),
      processItem th tbl ⟨m0, none⟩ = processItem th tbl ⟨m0, some (.num 0)⟩) ∧
    (∀ (th : ℚ) (tbl : List (String × ℚ)) (m0 mv : Option PyVal),
      pyFloat (mv.getD (.num 0)) = none → processItem th tbl ⟨m0, mv⟩ = Except.error ()) := by
  refine ⟨?_, ?_, ?_⟩
  · intro th tbl mv hsome
    obtain ⟨mean, hf⟩ := Option.isSome_iff_exists.mp hsome
    have hmean : pyFloat (itemMeanVal ⟨none, mv⟩) = some mean := hf
    refine ⟨pyStr .null ++ ": new benchmark (mean: " ++ fmt0 mean ++ "ns)", ?_⟩
    have hmeth : itemMethodVal ⟨none, mv⟩ = .null := rfl
    simp only [processItem, hmean, hmeth, lookupBaseline_null]
  · intro th tbl m0
    rfl
  · intro th tbl m0 mv hf
    have hmv : itemMeanVal ⟨m0, mv⟩ = mv.getD (.num 0) := rfl
    simp only [processItem, hmv, hf]

/-- Claim C5, witness: the amended theorem applied at threshold 1/10 with
an empty baseline, for an entry with no method field, an entry with no
mean field, and an entry with a null mean. -/
theorem claim_C5_witness :
    (∃ m, processItem (1/10) [] ⟨none, some (.num 7)⟩ =
      Except.ok (Classification.NewBenchmark, m)) ∧
    processItem (1/10) [] ⟨some (.str "a"), none⟩ =
      processItem (1/10) [] ⟨some (.str "a"), some (.num 0)⟩ ∧
    processItem (1/10) [] ⟨some (.str "a"), some .null⟩ = Except.error () :=
  ⟨claim_C5_field_defaults.1 (1/10) [] (some (.num 7)) (by with_unfolding_all rfl),
   claim_C5_field_defaults.2.1 (1/10) [] (some (.str "a")),
   claim_C5_field_defaults.2.2 (1/10) [] (some (.str "a")) (some .null) rfl⟩

/-- Claim C7: when the results file does not exist the run exits with code
1 and the baseline file is never opened (no baseline read event occurs). -/
theorem claim_C7_missing_results (inp : RunInput) (h : inp.results = .absent) :
    (runGate inp).exitCode = 1 ∧ FileEvent.readBaseline ∉ (runGate inp).events := by
  obtain ⟨rp, bp, res, bl, th⟩ := inp
  dsimp only at h
  subst h
  simp [runGate]

/-- Claim C7, witness: the theorem applied to a run with an absent results
file and a perfectly good baseline file on disk. -/
theorem claim_C7_witness :
    (runGate ⟨"results.json", "benchmark-baselines.json", .absent,
        .parsed [("foo", 100)], 1/10⟩).exitCode = 1 ∧
    FileEvent.readBaseline ∉ (runGate ⟨"results.json", "benchmark-baselines.json", .absent,
        .parsed [("foo", 100)], 1/10⟩).events :=
  claim_C7_missing_results
    ⟨"results.json", "benchmark-baselines.json", .absent, .parsed [("foo", 100)], 1/10⟩ rfl

/-- Claim C6: when the baseline file exists but fails to parse, the run
prints the warning line and otherwise behaves exactly as if the baseline
file were absent — same exit code, same remaining output, same crash
status — and with the resulting empty baseline table every entry that is
processed at all is classified NewBenchmark. -/
theorem claim_C6_malformed_baseline (rp bp e : String) (th : ℚ) (doc : ResultsDoc)
    (it : BenchItem) (c : Classification) (m : String)
    (hp : processItem th [] it = Except.ok (c, m)) :
    (runGate ⟨rp, bp, .parsed doc, .unparsable e, th⟩).exitCode =
      (runGate ⟨rp, bp, .parsed doc, .absent, th⟩).exitCode ∧
    (runGate ⟨rp, bp, .parsed doc, .unparsable e, th⟩).output =
      ("⚠️  Warning: Could not load baseline: " ++ e) ::
        (runGate ⟨rp, bp, .parsed doc, .absent, th⟩).output ∧
    (runGate ⟨rp, bp, .parsed doc, .unparsable e, th⟩).crashed =
      (runGate ⟨rp, bp, .parsed doc, .absent, th⟩).crashed ∧
    c = Classification.NewBenchmark := by
  have hc : c = Classification.NewBenchmark :=
    processItem_unknown_class th [] it c m hp (lookupBaseline_nil _)
  cases hpa : processAll th [] (doc.benchmarks.getD []) with
  | error u =>
    refine ⟨?_, ?_, ?_, hc⟩ <;>
      simp [runGate, effTable, hpa, baselineWarnings, baselineEvents]
  | ok b =>
    refine ⟨?_, ?_, ?_, hc⟩ <;>
      simp [runGate, effTable, hpa, baselineWarnings, baselineEvents]

/-- Claim C6, witness: the theorem applied to a one-entry results document
and a baseline file that fails to parse. -/
theorem claim_C6_witness :
    (runGate ⟨"r.json", "b.json", .parsed ⟨some [mkEntry "foo" 5]⟩,
        .unparsable "boom", 1/10⟩).exitCode =
      (runGate ⟨"r.json", "b.json", .parsed ⟨some [mkEntry "foo" 5]⟩,
        .absent, 1/10⟩).exitCode ∧
    (runGate ⟨"r.json", "b.json", .parsed ⟨some [mkEntry "foo" 5]⟩,
        .unparsable "boom", 1/10⟩).output =
      ("⚠️  Warning: Could not load baseline: " ++ "boom") ::
        (runGate ⟨"r.json", "b.json", .parsed ⟨some [mkEntry "foo" 5]⟩,
          .absent, 1/10⟩).output ∧
    (runGate ⟨"r.json", "b.json", .parsed ⟨some [mkEntry "foo" 5]⟩,
        .unparsable "boom", 1/10⟩).crashed =
      (runGate ⟨"r.json", "b.json", .parsed ⟨some [mkEntry "foo" 5]⟩,
        .absent, 1/10⟩).crashed ∧
    Classification.NewBenchmark = Classification.NewBenchmark :=
  claim_C6_malformed_baseline "r.json" "b.json" "boom" (1/10) ⟨some [mkEntry "foo" 5]⟩
    (mkEntry "foo" 5) Classification.NewBenchmark ("foo: new benchmark (mean: 5ns)")
    (by with_unfolding_all rfl)

/-- Claim C9: over a run that completes classification, every entry lands
in exactly one of the three message lists (so the bucket sizes sum to the
number of entries — the four categories are mutually exclusive and
exhaustive), every entry receives exactly one category, and an entry's
processing depends only on its own fields, the baseline lookup of its own
method, and the threshold, not on the other entries. -/
theorem claim_C9_partition (th : ℚ) (tbl : List (String × ℚ)) (items : List BenchItem)
    (b : Buckets) (hpa : processAll th tbl items = Except.ok b) :
    b.regressions.length + b.improvements.length + b.new_benchmarks.length = items.length ∧
    (∀ it ∈ items, ∃! c : Classification, classOf th tbl it = some c) ∧
    (∀ (tblB : List (String × ℚ)) (it : BenchItem),
      lookupBaseline tbl (itemMethodVal it) = lookupBaseline tblB (itemMethodVal it) →
      processItem th tbl it = processItem th tblB it) := by
  have hok := processAll_all_ok th tbl items b hpa
  obtain ⟨h1, h2, h3⟩ := processAll_buckets th tbl items b hpa
  refine ⟨?_, ?_, ?_⟩
  · rw [h1, h2, h3]
    exact filterMap_msg_lengths th tbl items hok
  · intro it hit
    obtain ⟨c, m, hp⟩ := hok it hit
    refine ⟨c, by simp [classOf, hp], ?_⟩
    intro y hy
    simp only [classOf, hp, Option.some.injEq] at hy
    exact hy.symm
  · intro tblB it heq
    simp only [processItem, heq]

/-- Claim C9, witness: the theorem applied to a two-entry run in which one
method has a baseline and the other does not. -/
theorem claim_C9_witness :
    (Buckets.mk [] ["a: 5.0% slower (within threshold)"]
        ["b: new benchmark (mean: 42ns)"]).regressions.length +
      (Buckets.mk [] ["a: 5.0% slower (within threshold)"]
        ["b: new benchmark (mean: 42ns)"]).improvements.length +
      (Buckets.mk [] ["a: 5.0% slower (within threshold)"]
        ["b: new benchmark (mean: 42ns)"]).new_benchmarks.length =
      [mkEntry "a" 105, mkEntry "b" 42].length ∧
    (∀ it ∈ [mkEntry "a" 105, mkEntry "b" 42],
      ∃! c : Classification, classOf (1/10) [("a", 100)] it = some c) ∧
    (∀ (tblB : List (String × ℚ)) (it : BenchItem),
      lookupBaseline [("a", 100)] (itemMethodVal it) = lookupBaseline tblB (itemMethodVal it) →
      processItem (1/10) [("a", 100)] it = processItem (1/10) tblB it) :=
  claim_C9_partition (1/10) [("a", 100)] [mkEntry "a" 105, mkEntry "b" 42]
    (Buckets.mk [] ["a: 5.0% slower (within threshold)"] ["b: new benchmark (mean: 42ns)"])
    (by with_unfolding_all rfl)

/-- Claim C4: every entry whose method is not a key of the baseline table
is classified NewBenchmark; consequently, in a run that completes
classification with no entry's method having a baseline entry (for
example, an empty baseline table), every entry is classified NewBenchmark
and the exit code is 0. -/
theorem claim_C4_new_benchmark :
    (∀ (th : ℚ) (tbl : List (String × ℚ)) (it : BenchItem) (c : Classification) (m : String),
      processItem th tbl it = Except.ok (c, m) →
      lookupBaseline tbl (itemMethodVal it) = none → c = Classification.NewBenchmark) ∧
    (∀ (rp bp : String) (doc : ResultsDoc) (bl : FileState (List (String × ℚ))) (th : ℚ)
      (items : List BenchItem) (b : Buckets),
      doc.benchmarks = some items →
      processAll th (effTable bl) items = Except.ok b →
      (∀ it ∈ items, lookupBaseline (effTable bl) (itemMethodVal it) = none) →
      (∀ it ∈ items, classOf th (effTable bl) it = some Classification.NewBenchmark) ∧
      (runGate ⟨rp, bp, .parsed doc, bl, th⟩).exitCode = 0) := by
  refine ⟨processItem_unknown_class, ?_⟩
  intro rp bp doc bl th items b hbm hpa hnone
  have hok := processAll_all_ok _ _ _ _ hpa
  constructor
  · intro it hit
    obtain ⟨c, m, hp⟩ := hok it hit
    have hc := processItem_unknown_class _ _ _ _ _ hp (hnone it hit)
    simp [classOf, hp, hc]
  · have hreg : b.regressions = [] := by
      rw [(processAll_buckets _ _ _ _ hpa).1, List.filterMap_eq_nil_iff]
      intro it hit
      obtain ⟨c, m, hp⟩ := hok it hit
      have hc := processItem_unknown_class _ _ _ _ _ hp (hnone it hit)
      subst hc
      simp [regMsg, hp]
    have hrun : runGate ⟨rp, bp, .parsed doc, bl, th⟩ =
        ⟨.readResults :: baselineEvents bl, baselineWarnings bl ++ (reportLines th b).1,
          (reportLines th b).2, false⟩ := by
      simp only [runGate, hbm, Option.getD_some, hpa]
    rw [hrun]
    simp [reportLines_code, hreg]

/-- Claim C4, witness: the theorem's run-level part applied to a one-entry
results document against an absent baseline file. -/
theorem claim_C4_witness :
    (∀ it ∈ [mkEntry "bar" 42],
      classOf (1/10) (effTable (FileState.absent)) it = some Classification.NewBenchmark) ∧
    (runGate ⟨"r.json", "b.json", .parsed ⟨some [mkEntry "bar" 42]⟩,
        FileState.absent, 1/10⟩).exitCode = 0 :=
  claim_C4_new_benchmark.2 "r.json" "b.json" ⟨some [mkEntry "bar" 42]⟩ FileState.absent
    (1/10) [mkEntry "bar" 42]
    (Buckets.mk [] [] ["bar: new benchmark (mean: 42ns)"])
    rfl (by with_unfolding_all rfl)
    (by intro it hit; simp at hit; subst hit; with_unfolding_all rfl)

/-- Claim C2, counterexample: a results file that exists and parses but
whose single entry has a null mean makes the run exit 1 although the
results file is neither missing nor unparsable and no entry is classified
Regression — the classification loop dies with an uncaught exception
(`float(None)` raises), which the claim's if-and-only-if does not cover. -/
theorem claim_C2_counterexample :
    (runGate ⟨"results.json", "benchmark-baselines.json",
        .parsed ⟨some [⟨some (.str "foo"), some .null⟩]⟩, .absent, 1/10⟩).exitCode = 1 ∧
    (runGate ⟨"results.json", "benchmark-baselines.json",
        .parsed ⟨some [⟨some (.str "foo"), some .null⟩]⟩, .absent, 1/10⟩).crashed = true ∧
    classOf (1/10) (effTable .absent) ⟨some (.str "foo"), some .null⟩ ≠
      some Classification.Regression := by
  refine ⟨?_, ?_, ?_⟩
  · with_unfolding_all rfl
  · with_unfolding_all rfl
  · with_unfolding_all decide

/-- Claim C2 (amended): the exit code is always 0 or 1; a crashed run
(uncaught exception while classifying, e.g. a non-coercible mean) exits 1;
and a run that does not crash exits 1 exactly when the results file is
missing, the results file fails to parse, or at least one entry is
classified Regression — hence exits 0 otherwise, including when the
benchmarks list is empty. -/
theorem claim_C2_exit_code (inp : RunInput) :
    ((runGate inp).exitCode = 0 ∨ (runGate inp).exitCode = 1) ∧
    ((runGate inp).crashed = true → (runGate inp).exitCode = 1) ∧
    ((runGate inp).crashed = false →
      ((runGate inp).exitCode = 1 ↔
        inp.results = .absent ∨
        (∃ e, inp.results = FileState.unparsable e) ∨
        (∃ doc it, inp.results = .parsed doc ∧ it ∈ doc.benchmarks.getD [] ∧
          classOf inp.threshold (effTable inp.baseline) it =
            some Classification.Regression))) := by
  obtain ⟨rp, bp, res, bl, th⟩ := inp
  cases res with
  | absent =>
    refine ⟨Or.inr rfl, fun _ => rfl, fun _ => ?_⟩
    simp [runGate]
  | unparsable e =>
    refine ⟨Or.inr rfl, fun _ => rfl, fun _ => ?_⟩
    constructor
    · intro _
      exact Or.inr (Or.inl ⟨e, rfl⟩)
    · intro _
      rfl
  | parsed doc =>
    cases hpa : processAll th (effTable bl) (doc.benchmarks.getD []) with
    | error u =>
      have hrun : runGate ⟨rp, bp, .parsed doc, bl, th⟩ =
          ⟨.readResults :: baselineEvents bl, baselineWarnings bl, 1, true⟩ := by
        simp only [runGate, hpa]
      rw [hrun]
      exact ⟨Or.inr rfl, fun _ => rfl, fun h => absurd h (by simp)⟩
    | ok b =>
      have hrun : runGate ⟨rp, bp, .parsed doc, bl, th⟩ =
          ⟨.readResults :: baselineEvents bl, baselineWarnings bl ++ (reportLines th b).1,
            (reportLines th b).2, false⟩ := by
        simp only [runGate, hpa]
      rw [hrun]
      have hcode : (reportLines th b).2 = if b.regressions = [] then 0 else 1 :=
        reportLines_code th b
      have hfm := (processAll_buckets _ _ _ _ hpa).1
      refine ⟨?_, fun hcr => absurd hcr (by simp), fun _ => ?_⟩
      · rw [hcode]
        by_cases hr : b.regressions = [] <;> simp [hr]
      · rw [hcode]
        constructor
        · intro hone
          by_cases hr : b.regressions = []
          · rw [if_pos hr] at hone
            exact absurd hone (by norm_num)
          · rw [hfm] at hr
            have : ¬∀ it ∈ doc.benchmarks.getD [],
                regMsg th (effTable bl) it = none := by
              intro hall
              exact hr (List.filterMap_eq_nil_iff.mpr hall)
            push_neg at this
            obtain ⟨it, hit, hmsg⟩ := this
            exact Or.inr (Or.inr ⟨doc, it, rfl,
              hit, (regMsg_ne_none_iff th (effTable bl) it).mp hmsg⟩)
        · intro hdis
          rcases hdis with h | ⟨e, h⟩ | ⟨doc2, it, hdoc, hit, hcls⟩
          · exact FileState.noConfusion h
          · exact FileState.noConfusion h
          · have hd : doc2 = doc := by
              cases hdoc
              rfl
            subst hd
            have hmsg : regMsg th (effTable bl) it ≠ none :=
              (regMsg_ne_none_iff th (effTable bl) it).mpr hcls
            have hr : b.regressions ≠ [] := by
              rw [hfm]
              intro hnil
              exact hmsg (List.filterMap_eq_nil_iff.mp hnil it hit)
            rw [if_neg hr]

/-- Claim C2, witness: the amended theorem applied to a non-crashing run
with one genuine regression (baseline 100, mean 150, threshold 1/10). -/
theorem claim_C2_witness :
    ((runGate ⟨"r.json", "b.json", .parsed ⟨some [mkEntry "foo" 150]⟩,
        .parsed [("foo", 100)], 1/10⟩).exitCode = 0 ∨
      (runGate ⟨"r.json", "b.json", .parsed ⟨some [mkEntry "foo" 150]⟩,
        .parsed [("foo", 100)], 1/10⟩).exitCode = 1) ∧
    ((runGate ⟨"r.json", "b.json", .parsed ⟨some [mkEntry "foo" 150]⟩,
        .parsed [("foo", 100)], 1/10⟩).crashed = true →
      (runGate ⟨"r.json", "b.json", .parsed ⟨some [mkEntry "foo" 150]⟩,
        .parsed [("foo", 100)], 1/10⟩).exitCode = 1) ∧
    ((runGate ⟨"r.json", "b.json", .parsed ⟨some [mkEntry "foo" 150]⟩,
        .parsed [("foo", 100)], 1/10⟩).crashed = false →
      ((runGate ⟨"r.json", "b.json", .parsed ⟨some [mkEntry "foo" 150]⟩,
          .parsed [("foo", 100)], 1/10⟩).exitCode = 1 ↔
        (FileState.parsed ⟨some [mkEntry "foo" 150]⟩ : FileState ResultsDoc) = .absent ∨
        (∃ e, (FileState.parsed ⟨some [mkEntry "foo" 150]⟩ : FileState ResultsDoc) =
          FileState.unparsable e) ∨
        (∃ doc it,
          (FileState.parsed ⟨some [mkEntry "foo" 150]⟩ : FileState ResultsDoc) =
            .parsed doc ∧
          it ∈ doc.benchmarks.getD [] ∧
          classOf (1/10) (effTable (.parsed [("foo", 100)])) it =
            some Classification.Regression))) :=
  claim_C2_exit_code
    ⟨"r.json", "b.json", .parsed ⟨some [mkEntry "foo" 150]⟩, .parsed [("foo", 100)], 1/10⟩

/-- Claim C8: for a run that completes classification, the printed report
has the fixed section order — banner block, then (if non-empty) the merged
improvement/within-threshold section, then (if non-empty) the
new-benchmark section, then either the regression section whose header
names the threshold percentage followed by a closing banner, or the
success closing lines — and within each section the per-metric messages
are the order-preserving projection of the input benchmarks list. -/
theorem claim_C8_report_structure (inp : RunInput) (doc : ResultsDoc)
    (items : List BenchItem) (b : Buckets) (hres : inp.results = .parsed doc)
    (hbm : doc.benchmarks = some items)
    (hpa : processAll inp.threshold (effTable inp.baseline) items = Except.ok b) :
    (runGate inp).output =
      baselineWarnings inp.baseline ++ reportHead ++
      (if items.filterMap (impMsg inp.threshold (effTable inp.baseline)) = [] then []
       else "\n✓ Improvements/Within Threshold:" ::
         (items.filterMap (impMsg inp.threshold (effTable inp.baseline))).map indentTwo) ++
      (if items.filterMap (newMsg inp.threshold (effTable inp.baseline)) = [] then []
       else "\n+ New Benchmarks:" ::
         (items.filterMap (newMsg inp.threshold (effTable inp.baseline))).map indentTwo) ++
      (if items.filterMap (regMsg inp.threshold (effTable inp.baseline)) = [] then
         ["\n✓ All benchmarks within acceptable threshold", bar70 ++ "\n"]
       else ("\n❌ REGRESSIONS DETECTED (> " ++ fmt0 (inp.threshold * 100) ++
           "% threshold):") ::
         (items.filterMap (regMsg inp.threshold (effTable inp.baseline))).map indentTwo ++
         ["\n" ++ bar70]) := by
  obtain ⟨rp, bp, res, bl, th⟩ := inp
  dsimp only at hres hpa ⊢
  subst hres
  obtain ⟨h1, h2, h3⟩ := processAll_buckets _ _ _ _ hpa
  have hrun : runGate ⟨rp, bp, .parsed doc, bl, th⟩ =
      ⟨.readResults :: baselineEvents bl, baselineWarnings bl ++ (reportLines th b).1,
        (reportLines th b).2, false⟩ := by
    simp only [runGate, hbm, Option.getD_some, hpa]
  rw [hrun]
  by_cases hr : items.filterMap (regMsg th (effTable bl)) = [] <;>
    by_cases hi : items.filterMap (impMsg th (effTable bl)) = [] <;>
    by_cases hn : items.filterMap (newMsg th (effTable bl)) = [] <;>
    simp [reportLines, h1, h2, h3, hr, hi, hn, List.append_assoc]

/-- Claim C8, witness: the theorem applied to a two-entry run producing a
non-empty improvement section and a non-empty new-benchmark section. -/
theorem claim_C8_witness :
    (runGate ⟨"r.json", "b.json", .parsed ⟨some [mkEntry "a" 105, mkEntry "b" 42]⟩,
        .parsed [("a", 100)], 1/10⟩).output =
      baselineWarnings (FileState.parsed [("a", 100)]) ++ reportHead ++
      (if ([mkEntry "a" 105, mkEntry "b" 42].filterMap
          (impMsg (1/10) (effTable (FileState.parsed [("a", 100)])))) = [] then []
       else "\n✓ Improvements/Within Threshold:" ::
         ([mkEntry "a" 105, mkEntry "b" 42].filterMap
           (impMsg (1/10) (effTable (FileState.parsed [("a", 100)])))).map indentTwo) ++
      (if ([mkEntry "a" 105, mkEntry "b" 42].filterMap
          (newMsg (1/10) (effTable (FileState.parsed [("a", 100)])))) = [] then []
       else "\n+ New Benchmarks:" ::
         ([mkEntry "a" 105, mkEntry "b" 42].filterMap
           (newMsg (1/10) (effTable (FileState.parsed [("a", 100)])))).map indentTwo) ++
      (if ([mkEntry "a" 105, mkEntry "b" 42].filterMap
          (regMsg (1/10) (effTable (FileState.parsed [("a", 100)])))) = [] then
         ["\n✓ All benchmarks within acceptable threshold", bar70 ++ "\n"]
       else ("\n❌ REGRESSIONS DETECTED (> " ++ fmt0 ((1/10) * 100) ++ "% threshold):") ::
         ([mkEntry "a" 105, mkEntry "b" 42].filterMap
           (regMsg (1/10) (effTable (FileState.parsed [("a", 100)])))).map indentTwo ++
         ["\n" ++ bar70]) :=
  claim_C8_report_structure
    ⟨"r.json", "b.json", .parsed ⟨some [mkEntry "a" 105, mkEntry "b" 42]⟩,
      .parsed [("a", 100)], 1/10⟩
    ⟨some [mkEntry "a" 105, mkEntry "b" 42]⟩
    [mkEntry "a" 105, mkEntry "b" 42]
    (Buckets.mk [] ["a: 5.0% slower (within threshold)"] ["b: new benchmark (mean: 42ns)"])
    rfl rfl (by with_unfolding_all rfl)
